import Mathlib

/-!
Shallow embedding of the ESP32 audio file distribution WebSocket client
(main/websocket_example.c): the cheap type-tag peek, the protocol
dispatcher, the download/upload transfer engine with progress throttling
and storage reclamation, the reconnection supervisor, and the data branch
of the WebSocket event callback.  External effects (HTTP reads, file
writes, timer firings, the MD5 accumulator) are parameters of the
embedded functions; control flow, arithmetic and ordering of effects
follow the C source.
-/

namespace AP

/-- Characters of a C string. -/
abbrev CStr := List Char

/-- MAX_FILE_SIZE (1024*1024 bytes). -/
def MAX_FILE_SIZE : Int := 1024 * 1024

/-- BUFFER_SIZE: transfer chunk buffer size. -/
def BUFFER_SIZE : Nat := 4096

/-- MAX_FILES: capacity of the device_files catalog array. -/
def MAX_FILES : Nat := 5

/-- MAX_RECONNECT_ATTEMPTS: reconnection attempt cap. -/
def MAX_RECONNECT_ATTEMPTS : Nat := 10

/-- WS_QUEUE_SIZE: capacity of ws_event_queue. -/
def WS_QUEUE_SIZE : Nat := 10

/-- C strstr, returning the suffix of the haystack that starts at the first
occurrence of the pattern, or none if the pattern does not occur. -/
def strstrSuffix (pat : CStr) : CStr → Option CStr
  | [] => if pat = [] then some [] else none
  | c :: rest => if pat.isPrefixOf (c :: rest) then some (c :: rest) else strstrSuffix pat rest

/-- C strchr at the model level: index of the first occurrence of a character. -/
def chIdx (c : Char) : CStr → Option Nat
  | [] => none
  | x :: rest => if x = c then some 0 else (chIdx c rest).map (· + 1)

/-- C strrchr: the suffix starting at the last occurrence of the character. -/
def strrchrSuffix (c : Char) : CStr → Option CStr
  | [] => none
  | x :: rest =>
    match strrchrSuffix c rest with
    | some s => some s
    | none => if x = c then some (x :: rest) else none

/-- The byte sequence scanned for by get_message_type: quote, type, quote, colon, quote. -/
def typeTag : CStr := '"' :: 't' :: 'y' :: 'p' :: 'e' :: '"' :: ':' :: '"' :: []

/-- get_message_type: cheap peek that looks for the literal bytes of `typeTag`
and extracts the following characters up to the next double quote, provided
the extracted length fits the 32-byte static buffer (length < 31). -/
def get_message_type (json : CStr) : Option CStr :=
  match strstrSuffix typeTag json with
  | none => none
  | some suff =>
    match chIdx '"' (suff.drop 8) with
    | none => none
    | some len => if len < 31 then some ((suff.drop 8).take len) else none

/-- Fields the dispatcher reads from the "data" object (cJSON view): `some`
models an item present with a non-null valuestring; `size` models item
presence, carrying its valueint (0 when the item is not a number). -/
structure ParsedData where
  filename : Option CStr
  url : Option CStr
  md5 : Option CStr
  size : Option Int
deriving DecidableEq

/-- cJSON view of a whole message: the "type" item's valuestring and the
"data" object, as accessed by handle_ws_event / handle_upload_request. -/
structure Parsed where
  ptype : Option CStr
  pdata : Option ParsedData
deriving DecidableEq

def dlNotifyName : CStr := "download_notify".toList

def upReqName : CStr := "upload_request".toList

def dlCompAckName : CStr := "download_complete_ack".toList

def upCompAckName : CStr := "upload_complete_ack".toList

def onlineAckName : CStr := "online_ack".toList

def fileListAckName : CStr := "file_list_ack".toList

def heartbeatAckName : CStr := "heartbeat_ack".toList

/-- Net effect of handle_ws_event on one WS_EVENT_DATA message.
`downloadStart fn u m sz` means: send download_ack carrying `fn`, then call
download_file u fn m sz.  `uploadStart fn u` means: send upload_ack carrying
`fn`, then call upload_file fn u.  The drop constructors send nothing and
start nothing (downloadDrop and uploadDrop log a missing-field error or
silently skip on a failed parse; peekDrop is the silent fall-through when the
peeked tag is not download_notify; unknownDrop covers a full parse whose type
is missing or unhandled; parseFail is a cJSON parse failure). -/
inductive WsOutcome
  | downloadStart (filename url md5 : CStr) (size : Int)
  | downloadDrop
  | peekDrop (tag : CStr)
  | uploadStart (filename url : CStr)
  | uploadDrop
  | ackDownloadComplete
  | ackUploadComplete
  | unknownDrop
  | parseFail
deriving DecidableEq

/-- handle_upload_request (lines 873-915): re-parses the message; on a data
object with filename and url it sends upload_ack with that filename and
starts upload_file; otherwise it logs and drops. -/
def handle_upload_request (parsed : Option Parsed) : WsOutcome :=
  match parsed with
  | none => .parseFail
  | some p =>
    match p.pdata with
    | none => .uploadDrop
    | some d =>
      match d.filename, d.url with
      | some fn, some u => .uploadStart fn u
      | some _, none => .uploadDrop
      | none, some _ => .uploadDrop
      | none, none => .uploadDrop

/-- The WS_EVENT_DATA branch of handle_ws_event (lines 289-368).  `json` is
the raw message text; `parsed` models the result of cJSON_Parse on it (none
when cJSON fails).  When the cheap peek extracts a tag, only download_notify
is handled and every other tag falls through silently; only when the peek
fails does the full-parse branch run, which handles upload_request and the
two completion acks. -/
def handle_ws_data (json : CStr) (parsed : Option Parsed) : WsOutcome :=
  match get_message_type json with
  | some t =>
    if t = dlNotifyName then
      match parsed with
      | none => .downloadDrop
      | some p =>
        match p.pdata with
        | none => .downloadDrop
        | some d =>
          match d.filename, d.url, d.md5 with
          | some fn, some u, some m =>
            if 0 < d.size.getD 0 then .downloadStart fn u m (d.size.getD 0)
            else .downloadDrop
          | _, _, _ => .downloadDrop
    else .peekDrop t
  | none =>
    match parsed with
    | none => .parseFail
    | some p =>
      match p.ptype with
      | none => .unknownDrop
      | some t =>
        if t = upReqName then handle_upload_request parsed
        else if t = dlCompAckName then .ackDownloadComplete
        else if t = upCompAckName then .ackUploadComplete
        else .unknownDrop

/-- One entry of the SPIFFS directory enumerated by the storage reclaimer:
its d_name and the bytes freed by unlinking it. -/
structure DirEnt where
  name : CStr
  size : Nat
deriving DecidableEq

/-- One entry of the device_files catalog (file_info_t): filename
(char[32], so at most 31 characters stored), size, md5 (char[33]),
timestamp. -/
structure FileRecord where
  filename : CStr
  size : Nat
  md5 : CStr
  timestamp : Int
deriving DecidableEq

/-- Externally observable steps of download_file, in program order. -/
inductive DlEv
  | unlinkFile (name : CStr)
  | fileOpen (path : CStr)
  | httpOpen
  | fetchHeaders
  | bodyRead (n : Nat)
  | fileWrite (n : Nat)
  | logMatch
  | logMismatch
  | sendComplete (filename md5 : CStr)
  | sendFileList
deriving DecidableEq

/-- Return value of download_file.  ok is ESP_OK; failInit, failCreate and
failHttp are ESP_FAIL; failSpiffs is the esp_spiffs_info error; failNoMem
and failBufAlloc are ESP_ERR_NO_MEM; failOpen is the esp_http_client_open
error; failInvalidSize is ESP_ERR_INVALID_SIZE. -/
inductive DlRet
  | ok
  | failInit
  | failSpiffs
  | failNoMem
  | failCreate
  | failOpen
  | failInvalidSize
  | failBufAlloc
  | failHttp
deriving DecidableEq

/-- Environment of one download_file run: the SPIFFS state, the directory
contents seen by the reclaimer, success of the fallible initialisation
steps, and the HTTP exchange (Content-Length from fetch_headers, the byte
chunks delivered by successive esp_http_client_read calls, the esp_timer
second observed at each loop iteration, and the final status code). -/
structure DlEnv where
  total : Nat
  used : Nat
  dirEntries : List DirEnt
  httpInitOk : Bool
  spiffsOk : Bool
  fopenOk : Bool
  httpOpenOk : Bool
  content_length : Int
  chunks : List (List Nat)
  times : List Int
  bufAllocOk : Bool
  status_code : Int
deriving DecidableEq

/-- The reclamation loop of download_file (lines 660-683): walk the
directory; entries whose name is 30 characters or longer are skipped with a
warning; any other entry is unlinked, the free space re-queried, and the
loop breaks once free space reaches the needed size.  Returns the unlink
events, the used-byte count afterwards, and the entries still resident. -/
def reclaimLoop (need : Int) (total : Nat) : Nat → List DirEnt → List DlEv × Nat × List DirEnt
  | used, [] => ([], used, [])
  | used, e :: rest =>
    if e.name.length < 30 then
      let used' := used - e.size
      if need ≤ (total : Int) - (used' : Int) then
        ([DlEv.unlinkFile e.name], used', rest)
      else
        let r := reclaimLoop need total used' rest
        (DlEv.unlinkFile e.name :: r.1, r.2.1, r.2.2)
    else
      let r := reclaimLoop need total used rest
      (r.1, r.2.1, e :: r.2.2)

/-- The short storage filename (lines 693-703): "f_" followed by the
printf %8.8s rendering of the expected md5 (first 8 characters, left-padded
with spaces if shorter) and the extension taken from the last dot of the
original name; snprintf into char[32] keeps at most 31 characters. -/
def short_filename (expected_md5 filename : CStr) : CStr :=
  let m8 := expected_md5.take 8
  let padded := List.replicate (8 - m8.length) ' ' ++ m8
  let ext := match strrchrSuffix '.' filename with
    | some e => e
    | none => []
  (('f' :: '_' :: []) ++ padded ++ ext).take 31

/-- State threaded through the download read/write loop. -/
structure DlLoopSt where
  total_read : Nat
  last_percent : Nat
  last_update_time : Int
  bytes : List Nat
  events : List DlEv
  reports : List (Nat × Int)
deriving DecidableEq

/-- The download loop (lines 760-799): read a chunk, write it, feed it to
the MD5 accumulator, and send a progress notification only when the
percentage advanced by at least 10 since the last report or at least 3
seconds elapsed since the last report, and the percentage differs from the
last reported one.  A non-positive read ends the loop.  Percentages are
total_read * 100 / content_length in C int arithmetic (all values
non-negative, so Nat division coincides); file writes always succeed in
this model (the fwrite-failure abort is not exercised by any claim). -/
def dlLoop (cl : Nat) : List (List Nat) → List Int → DlLoopSt → DlLoopSt
  | [], _, st => st
  | chunk :: rest, times, st =>
    if chunk.length = 0 then st
    else
      let total := st.total_read + chunk.length
      let percent := total * 100 / cl
      let t := times.headD 0
      if (10 ≤ percent - st.last_percent ∨ 3 ≤ t - st.last_update_time) ∧
          percent ≠ st.last_percent then
        dlLoop cl rest times.tail
          { total_read := total, last_percent := percent, last_update_time := t,
            bytes := st.bytes ++ chunk,
            events := st.events ++ [DlEv.bodyRead chunk.length, DlEv.fileWrite chunk.length],
            reports := st.reports ++ [(percent, t)] }
      else
        dlLoop cl rest times.tail
          { total_read := total, last_percent := st.last_percent,
            last_update_time := st.last_update_time,
            bytes := st.bytes ++ chunk,
            events := st.events ++ [DlEv.bodyRead chunk.length, DlEv.fileWrite chunk.length],
            reports := st.reports }

/-- Result of download_file: the event trace, the return code, the catalog
afterwards, the directory afterwards, the progress reports (percent paired
with the time it was sent), and the bytes written to storage (which are
exactly the bytes fed to the MD5 accumulator). -/
structure DlOut where
  events : List DlEv
  ret : DlRet
  catalog : List FileRecord
  dirAfter : List DirEnt
  reports : List (Nat × Int)
  written : List Nat
deriving DecidableEq

/-- The conditional reclamation block at the head of download_file
(lines 655-691): when free space is short of the declared size, run the
reclamation loop; otherwise leave the directory and used count untouched. -/
def reclaimIfNeeded (need : Int) (env : DlEnv) : List DlEv × Nat × List DirEnt :=
  if (env.total : Int) - (env.used : Int) < need then
    reclaimLoop need env.total env.used env.dirEntries
  else ([], env.used, env.dirEntries)

/-- download_file (lines 626-854).  `md5Fn` models the mbedtls MD5 digest
of a byte sequence rendered as the 32-character hex string.  Callers pass
file_size > 0 (the dispatcher only starts a download for size > 0).  Steps
in source order: HTTP client init; esp_spiffs_info; storage reclamation
when free space is short, aborting with ESP_ERR_NO_MEM if still short;
short filename; fopen; esp_http_client_open; fetch_headers giving
content_length, rejected outside (0, MAX_FILE_SIZE]; buffer malloc; the
chunked read/write loop; then on HTTP status 200 the completion notice with
the short name and computed md5, and, only when the catalog holds fewer
than MAX_FILES records, the appended record and re-announced file list. -/
def download_file (url filename expected_md5 : CStr) (file_size : Int)
    (catalog : List FileRecord) (now : Int) (md5Fn : List Nat → CStr)
    (env : DlEnv) : DlOut :=
  if env.httpInitOk = false then
    { events := [], ret := .failInit, catalog := catalog, dirAfter := env.dirEntries,
      reports := [], written := [] }
  else if env.spiffsOk = false then
    { events := [], ret := .failSpiffs, catalog := catalog, dirAfter := env.dirEntries,
      reports := [], written := [] }
  else
    let free0 : Int := (env.total : Int) - (env.used : Int)
    let r := reclaimIfNeeded file_size env
    if free0 < file_size ∧ (env.total : Int) - (r.2.1 : Int) < file_size then
      { events := r.1, ret := .failNoMem, catalog := catalog, dirAfter := r.2.2,
        reports := [], written := [] }
    else
      let short := short_filename expected_md5 filename
      if env.fopenOk = false then
        { events := r.1, ret := .failCreate, catalog := catalog, dirAfter := r.2.2,
          reports := [], written := [] }
      else if env.httpOpenOk = false then
        { events := r.1 ++ [DlEv.fileOpen short], ret := .failOpen, catalog := catalog,
          dirAfter := r.2.2, reports := [], written := [] }
      else if env.content_length ≤ 0 ∨ MAX_FILE_SIZE < env.content_length then
        { events := r.1 ++ [DlEv.fileOpen short, DlEv.httpOpen, DlEv.fetchHeaders],
          ret := .failInvalidSize, catalog := catalog, dirAfter := r.2.2,
          reports := [], written := [] }
      else if env.bufAllocOk = false then
        { events := r.1 ++ [DlEv.fileOpen short, DlEv.httpOpen, DlEv.fetchHeaders],
          ret := .failBufAlloc, catalog := catalog, dirAfter := r.2.2,
          reports := [], written := [] }
      else
        let st := dlLoop env.content_length.toNat env.chunks env.times
          { total_read := 0, last_percent := 0, last_update_time := 0,
            bytes := [], events := [], reports := [] }
        let evts := r.1 ++ [DlEv.fileOpen short, DlEv.httpOpen, DlEv.fetchHeaders] ++ st.events
        let calculated := md5Fn st.bytes
        if env.status_code = 200 then
          let evts2 := evts ++
            (if calculated = expected_md5 then [DlEv.logMatch] else [DlEv.logMismatch]) ++
            [DlEv.sendComplete short calculated]
          if catalog.length < MAX_FILES then
            { events := evts2 ++ [DlEv.sendFileList],
              ret := .ok,
              catalog := catalog ++ [{ filename := short.take 31, size := st.total_read,
                                       md5 := calculated.take 32, timestamp := now }],
              dirAfter := r.2.2, reports := st.reports, written := st.bytes }
          else
            { events := evts2, ret := .ok, catalog := catalog, dirAfter := r.2.2,
              reports := st.reports, written := st.bytes }
        else
          { events := evts, ret := .failHttp, catalog := catalog, dirAfter := r.2.2,
            reports := st.reports, written := st.bytes }

/-- Chunk sizes produced by fread(buffer, 1, BUFFER_SIZE, f) on a file of
n bytes: full BUFFER_SIZE chunks then the remainder.  The first argument is
fuel (call with fuel = n). -/
def uploadChunksAux : Nat → Nat → List Nat
  | 0, _ => []
  | fuel + 1, n =>
    if n = 0 then []
    else if n ≤ BUFFER_SIZE then [n]
    else BUFFER_SIZE :: uploadChunksAux fuel (n - BUFFER_SIZE)

/-- fread chunk sizes for an n-byte file. -/
def uploadChunks (n : Nat) : List Nat := uploadChunksAux n n

/-- State threaded through the upload write loop. -/
structure UpSt where
  total_write : Nat
  last_percent : Nat
  last_update_time : Int
  reports : List (Nat × Int)
deriving DecidableEq

/-- The upload loop (lines 998-1030): read a chunk of the local file, write
it to the HTTP stream, feed the MD5 accumulator, and send a progress
notification under exactly the same throttling condition as the download
loop.  HTTP writes succeed in full in this model (the negative-write abort
is not exercised by any claim). -/
def upLoop (fs : Nat) : List Nat → List Int → UpSt → UpSt
  | [], _, st => st
  | n :: rest, times, st =>
    if n = 0 then st
    else
      let total := st.total_write + n
      let percent := total * 100 / fs
      let t := times.headD 0
      if (10 ≤ percent - st.last_percent ∨ 3 ≤ t - st.last_update_time) ∧
          percent ≠ st.last_percent then
        upLoop fs rest times.tail
          { total_write := total, last_percent := percent, last_update_time := t,
            reports := st.reports ++ [(percent, t)] }
      else
        upLoop fs rest times.tail
          { total_write := total, last_percent := st.last_percent,
            last_update_time := st.last_update_time, reports := st.reports }

/-- Return value of upload_file: ok is ESP_OK; failOpenFile, failWrite and
failHttp are ESP_FAIL; failInvalidSize is ESP_ERR_INVALID_SIZE; failHttpInit
is ESP_FAIL; failHttpOpen is the open error; failBufAlloc is
ESP_ERR_NO_MEM. -/
inductive UpRet
  | ok
  | failOpenFile
  | failInvalidSize
  | failHttpInit
  | failHttpOpen
  | failBufAlloc
  | failHttp
deriving DecidableEq

/-- Environment of one upload_file run: whether the local file opens, its
ftell size, success of the fallible setup steps, the esp_timer second at
each loop iteration, the time at which the post-loop 100% notification (if
any) is sent, and the final HTTP status code. -/
structure UpEnv where
  fileOpenOk : Bool
  file_size : Int
  httpInitOk : Bool
  httpOpenOk : Bool
  bufAllocOk : Bool
  times : List Int
  endTime : Int
  status_code : Int
deriving DecidableEq

/-- Result of upload_file: progress reports (percent, send time) and return
code. -/
structure UpOut where
  reports : List (Nat × Int)
  ret : UpRet
deriving DecidableEq

/-- upload_file (lines 918-1076).  Steps in source order: fopen; ftell size
check rejecting sizes outside (0, MAX_FILE_SIZE]; HTTP client init; open;
buffer malloc; the chunked read/write loop over the fread chunks of the
file; then, if the last reported percent is not 100 and everything was
written, an unconditional final 100% progress notification; finally the
status check (200 or 201 accepts). -/
def upload_file (filename : CStr) (env : UpEnv) : UpOut :=
  if env.fileOpenOk = false then { reports := [], ret := .failOpenFile }
  else if env.file_size ≤ 0 ∨ MAX_FILE_SIZE < env.file_size then
    { reports := [], ret := .failInvalidSize }
  else if env.httpInitOk = false then { reports := [], ret := .failHttpInit }
  else if env.httpOpenOk = false then { reports := [], ret := .failHttpOpen }
  else if env.bufAllocOk = false then { reports := [], ret := .failBufAlloc }
  else
    let fs := env.file_size.toNat
    let st := upLoop fs (uploadChunks fs) env.times
      { total_write := 0, last_percent := 0, last_update_time := 0, reports := [] }
    let reports :=
      if st.last_percent ≠ 100 ∧ st.total_write = fs then
        st.reports ++ [(100, env.endTime)]
      else st.reports
    if env.status_code = 200 ∨ env.status_code = 201 then
      { reports := reports, ret := .ok }
    else
      { reports := reports, ret := .failHttp }

/-- Connection-supervisor state touched by the callback: the reconnection
attempt counter, whether the reconnect and heartbeat timers run, and
whether the client is connected. -/
structure ConnState where
  reconnect_attempts : Nat
  reconnectTimerOn : Bool
  heartbeatOn : Bool
  connected : Bool
deriving DecidableEq

/-- Connection events handled directly in websocket_event_handler. -/
inductive ConnEv
  | connected
  | disconnected
  | reconnectTimerFire
deriving DecidableEq

/-- attempt_reconnect (lines 480-496).  Below the cap the counter is
incremented and, when the client is not connected, esp_websocket_client_start
is called (the returned Bool records that a connect attempt was made).  At
the cap nothing is attempted and the reconnect timer is stopped. -/
def attempt_reconnect (s : ConnState) : ConnState × Bool :=
  if s.reconnect_attempts < MAX_RECONNECT_ATTEMPTS then
    ({ s with reconnect_attempts := s.reconnect_attempts + 1 }, !s.connected)
  else
    ({ s with reconnectTimerOn := false }, false)

/-- The connection-lifecycle transitions of websocket_event_handler
(lines 152-172) and reconnect_timer_callback: CONNECTED resets the attempt
counter, stops the reconnect timer and starts the heartbeat; DISCONNECTED
stops the heartbeat and starts the reconnect timer; a reconnect-timer fire
runs attempt_reconnect.  The Bool is whether a connect attempt was made. -/
def conn_step (s : ConnState) : ConnEv → ConnState × Bool
  | .connected =>
    ({ reconnect_attempts := 0, reconnectTimerOn := false, heartbeatOn := true,
       connected := true }, false)
  | .disconnected =>
    ({ s with heartbeatOn := false, reconnectTimerOn := true, connected := false }, false)
  | .reconnectTimerFire => attempt_reconnect s

/-- Iterate reconnect-timer fires; the Bool records whether any of them made
a connect attempt. -/
def fire_many (s : ConnState) : Nat → ConnState × Bool
  | 0 => (s, false)
  | k + 1 =>
    let r := conn_step s .reconnectTimerFire
    let r' := fire_many r.1 k
    (r'.1, r.2 || r'.2)

/-- Actions of the WS_EVENT_DATA branch of websocket_event_handler. -/
inductive HEv
  | mallocCopy
  | inlineFileList
  | freeBuf
  | enqueue
deriving DecidableEq

/-- The WS_EVENT_DATA branch of websocket_event_handler (lines 174-243).
Empty messages and control frames (ping 0x9, pong 0xA, close 0x8) return
without queueing; otherwise the payload is copied into a malloc'd buffer
(allocation failure returns), the three cheap acks are handled inline and
freed, and every other message is enqueued -- unless the queue is full, in
which case the event is dropped and its buffer freed, and the callback
returns.  Returns the queue afterwards and the actions taken. -/
def ws_data_handler (payload : CStr) (data_len : Int) (ptrNull : Bool) (op_code : Nat)
    (mallocOk : Bool) (queue : List CStr) : List CStr × List HEv :=
  if data_len ≤ 0 ∨ ptrNull then (queue, [])
  else if op_code = 9 ∨ op_code = 10 ∨ op_code = 8 then (queue, [])
  else if mallocOk = false then (queue, [])
  else
    match get_message_type payload with
    | some t =>
      if t = onlineAckName then (queue, [HEv.mallocCopy, HEv.inlineFileList, HEv.freeBuf])
      else if t = fileListAckName then (queue, [HEv.mallocCopy, HEv.freeBuf])
      else if t = heartbeatAckName then (queue, [HEv.mallocCopy, HEv.freeBuf])
      else if queue.length < WS_QUEUE_SIZE then
        (queue ++ [payload], [HEv.mallocCopy, HEv.enqueue])
      else (queue, [HEv.mallocCopy, HEv.freeBuf])
    | none =>
      if queue.length < WS_QUEUE_SIZE then
        (queue ++ [payload], [HEv.mallocCopy, HEv.enqueue])
      else (queue, [HEv.mallocCopy, HEv.freeBuf])

/-- The throttling condition as a predicate on the report list: every
report advanced by at least 10 percentage points or came at least 3 seconds
after the previous report, and differs in percentage from it; the baseline
is (0, 0), the initial last_percent / last_update_time. -/
def progressOkB : Nat → Int → List (Nat × Int) → Bool
  | _, _, [] => true
  | p, t, (p', t') :: rest =>
    ((decide (10 ≤ p' - p) || decide (3 ≤ t' - t)) && decide (p' ≠ p)) &&
      progressOkB p' t' rest

/-- Strictly increasing list of percentages. -/
def strictIncB : List Nat → Bool
  | [] => true
  | [_] => true
  | a :: b :: rest => decide (a < b) && strictIncB (b :: rest)

/-- Last element of a Nat list with a default. -/
def lastD : List Nat → Nat → Nat
  | [], d => d
  | a :: l, _ => lastD l a

/-- The progress reports of a transfer loop as a standalone recursion on
the chunk sizes; dlLoop and upLoop produce exactly these reports. -/
def transferReports (sz : Nat) : List Nat → List Int → Nat → Nat → Int → List (Nat × Int)
  | [], _, _, _, _ => []
  | n :: rest, times, tr, lp, lt =>
    if n = 0 then []
    else
      let total := tr + n
      let percent := total * 100 / sz
      let t := times.headD 0
      if (10 ≤ percent - lp ∨ 3 ≤ t - lt) ∧ percent ≠ lp then
        (percent, t) :: transferReports sz rest times.tail total percent t
      else
        transferReports sz rest times.tail total lp lt

/-- The exact bytes whose presence the cheap peek establishes for a
dispatched download_notify. -/
def dlNotifyBytes : CStr := "\"type\":\"download_notify\"".toList

/-- True when the peeked tag of the payload is not one of the three acks
handled inline in the callback. -/
def notInlineAck (payload : CStr) : Bool :=
  match get_message_type payload with
  | none => true
  | some t =>
    decide (t ≠ onlineAckName) && decide (t ≠ fileListAckName) &&
      decide (t ≠ heartbeatAckName)

theorem isPrefixOf_ex {l1 l2 : CStr} (h : l1.isPrefixOf l2 = true) :
    ∃ u, l2 = l1 ++ u := by
  rcases List.isPrefixOf_iff_prefix.mp h with ⟨u, hu⟩
  exact ⟨u, hu.symm⟩

theorem strstr_decomp {pat : CStr} {hay s : CStr} (h : strstrSuffix pat hay = some s) :
    (∃ pre, hay = pre ++ s) ∧ ∃ u, s = pat ++ u := by
  induction hay with
  | nil =>
    unfold strstrSuffix at h
    split_ifs at h with hp
    · obtain rfl := Option.some.inj h
      exact ⟨⟨[], rfl⟩, [], by simp [hp]⟩
  | cons c rest ih =>
    unfold strstrSuffix at h
    split_ifs at h with hp
    · obtain rfl := Option.some.inj h
      exact ⟨⟨[], rfl⟩, isPrefixOf_ex hp⟩
    · obtain ⟨⟨pre, hpre⟩, hu⟩ := ih h
      exact ⟨⟨c :: pre, by rw [hpre, List.cons_append]⟩, hu⟩

theorem chIdx_decomp {c : Char} {xs : CStr} {n : Nat} (h : chIdx c xs = some n) :
    ∃ zs, xs = xs.take n ++ c :: zs := by
  induction xs generalizing n with
  | nil => simp [chIdx] at h
  | cons x rest ih =>
    unfold chIdx at h
    split_ifs at h with hx
    · obtain rfl := Option.some.inj h
      exact ⟨rest, by simp [hx]⟩
    · rcases hm : chIdx c rest with _ | m
      · rw [hm] at h; simp at h
      · rw [hm] at h
        dsimp only [Option.map] at h
        obtain rfl := Option.some.inj h
        obtain ⟨zs, hz⟩ := ih hm
        exact ⟨zs, by rw [List.take_succ_cons]; exact congrArg (x :: ·) hz⟩

theorem get_message_type_decomp {json t : CStr} (h : get_message_type json = some t) :
    ∃ pre post, json = pre ++ (typeTag ++ (t ++ ('"' :: post))) := by
  unfold get_message_type at h
  rcases hs : strstrSuffix typeTag json with _ | suff
  · rw [hs] at h; exact absurd h (by simp)
  · rw [hs] at h
    dsimp only at h
    rcases hc : chIdx '"' (suff.drop 8) with _ | len
    · rw [hc] at h; exact absurd h (by simp)
    · rw [hc] at h
      dsimp only at h
      split_ifs at h with hlen
      obtain rfl := Option.some.inj h
      obtain ⟨⟨pre, hpre⟩, u, hu⟩ := strstr_decomp hs
      obtain ⟨zs, hz⟩ := chIdx_decomp hc
      have hdrop : suff.drop 8 = u := by
        rw [hu]
        have h8 : typeTag.length = 8 := rfl
        rw [← h8, List.drop_left]
      have h1 : json = pre ++ (typeTag ++ u) := by rw [hpre, hu]
      have h2 : u = List.take len (List.drop 8 suff) ++ '"' :: zs := by
        rw [← hdrop]; exact hz
      exact ⟨pre, zs, by rw [h1, h2]⟩

/-- A compact-serialized upload_request, as produced by a whitespace-free
JSON serializer. -/
def rawUploadCompact : CStr :=
  "\x7b\"type\":\"upload_request\",\"data\":\x7b\"filename\":\"a\",\"url\":\"u\"\x7d\x7d".toList

/-- The same upload_request serialized with a space after each colon (as
json.dumps produces by default), so the cheap peek fails. -/
def rawUploadSpaced : CStr :=
  "\x7b\"type\": \"upload_request\", \"data\": \x7b\"filename\": \"a\", \"url\": \"u\"\x7d\x7d".toList

/-- cJSON view of both upload_request serializations above. -/
def parsedUpload : Parsed :=
  { ptype := some upReqName,
    pdata := some { filename := some ("a".toList), url := some ("u".toList),
                    md5 := none, size := none } }

theorem upload_request_not_download (parsed : Option Parsed) (fn u m : CStr) (sz : Int) :
    handle_upload_request parsed ≠ WsOutcome.downloadStart fn u m sz := by
  rcases parsed with _ | p
  · simp [handle_upload_request]
  · unfold handle_upload_request
    dsimp only
    rcases p.pdata with _ | d
    · simp
    · dsimp only
      rcases d.filename with _ | a <;> rcases d.url with _ | b <;> simp

/-- Claim C10: a queued download_notify reaches the download handler only
when the serialization contains the exact bytes of "type":"download_notify"
(first conjunct); when the cheap peek fails and the full parse yields type
download_notify, the fallback branch -- which handles only upload_request
and the completion acks -- discards it (second conjunct); and any message
whose peeked tag is upload_request is silently discarded by the peek branch,
which handles only download_notify (third conjunct). -/
theorem C10_theorem :
    (∀ json parsed fn u m sz,
        handle_ws_data json parsed = WsOutcome.downloadStart fn u m sz →
        ∃ pre post, json = pre ++ dlNotifyBytes ++ post)
    ∧ (∀ json (p : Parsed), get_message_type json = none →
        p.ptype = some dlNotifyName →
        handle_ws_data json (some p) = WsOutcome.unknownDrop)
    ∧ (∀ json parsed, get_message_type json = some upReqName →
        handle_ws_data json parsed = WsOutcome.peekDrop upReqName) := by
  refine ⟨?_, ?_, ?_⟩
  · intro json parsed fn u m sz h
    unfold handle_ws_data at h
    rcases hm : get_message_type json with _ | t
    · rw [hm] at h
      exfalso
      rcases parsed with _ | p
      · simp at h
      · dsimp only at h
        rcases hp : p.ptype with _ | t
        · rw [hp] at h; simp at h
        · rw [hp] at h
          dsimp only at h
          split_ifs at h with h1 h2 h3
          exact upload_request_not_download _ _ _ _ _ h
    · rw [hm] at h
      dsimp only at h
      by_cases ht : t = dlNotifyName
      · subst ht
        obtain ⟨pre, post, hj⟩ := get_message_type_decomp hm
        refine ⟨pre, post, ?_⟩
        rw [hj]
        have hb : dlNotifyBytes = typeTag ++ (dlNotifyName ++ ['"']) := by decide
        rw [hb]
        simp [List.append_assoc]
      · rw [if_neg ht] at h
        simp at h
  · intro json p hm hp
    unfold handle_ws_data
    rw [hm]
    dsimp only
    rw [hp]
    dsimp only
    rw [if_neg (by decide), if_neg (by decide), if_neg (by decide)]
  · intro json parsed hm
    unfold handle_ws_data
    rw [hm]
    dsimp only
    rw [if_neg (by decide)]

/-- Claim C10 witness: the compact upload_request is matched by the peek and
silently discarded. -/
theorem C10_witness :
    handle_ws_data rawUploadCompact (some parsedUpload) = WsOutcome.peekDrop upReqName :=
  C10_theorem.2.2 rawUploadCompact (some parsedUpload) (by decide)

/-- Claim C2 counterexample: a queued upload_request whose data carries both
filename and url, yet -- because its serialization is matched by the cheap
type-tag peek -- the dispatcher silently discards it: no upload_ack is sent
and no upload starts (the outcome is peekDrop, not uploadStart). -/
theorem C2_counterexample :
    handle_ws_data rawUploadCompact (some parsedUpload) =
      WsOutcome.peekDrop upReqName := by decide

/-- Claim C2 (amended): only an upload_request whose serialized bytes defeat
the cheap peek (e.g. whitespace after the colon) reaches the full-parse
branch; for those, when the data object has both filename and url the
dispatcher sends upload_ack carrying that filename and starts the upload
job, and when either field is missing the request is logged and dropped.
An upload_request matched by the peek is silently discarded. -/
theorem C2_theorem :
    ∀ json (p : Parsed), get_message_type json = none → p.ptype = some upReqName →
      (∀ d fn u, p.pdata = some d → d.filename = some fn → d.url = some u →
        handle_ws_data json (some p) = WsOutcome.uploadStart fn u)
      ∧ (∀ d, p.pdata = some d → d.filename = none ∨ d.url = none →
        handle_ws_data json (some p) = WsOutcome.uploadDrop) := by
  intro json p hm hp
  constructor
  · intro d fn u hd hfn hu
    unfold handle_ws_data
    rw [hm]
    dsimp only
    rw [hp]
    dsimp only
    rw [if_pos rfl]
    unfold handle_upload_request
    dsimp only
    rw [hd]
    dsimp only
    rw [hfn, hu]
  · intro d hd hmiss
    unfold handle_ws_data
    rw [hm]
    dsimp only
    rw [hp]
    dsimp only
    rw [if_pos rfl]
    unfold handle_upload_request
    dsimp only
    rw [hd]
    dsimp only
    rcases hmiss with hfn | hu
    · rw [hfn]
      rcases hu2 : d.url with _ | u' <;> rfl
    · rw [hu]
      rcases hfn2 : d.filename with _ | fn' <;> rfl

/-- Claim C2 witness: the space-serialized upload_request with both fields is
acknowledged and started. -/
theorem C2_witness :
    handle_ws_data rawUploadSpaced (some parsedUpload) =
      WsOutcome.uploadStart ("a".toList) ("u".toList) :=
  (C2_theorem rawUploadSpaced parsedUpload (by decide) rfl).1
    _ ("a".toList) ("u".toList) rfl rfl rfl

/-- Claim C9: an inbound data event that must be queued (non-empty data
frame whose tag is not one of the inline acks) arriving while the event
queue is full is dropped: the queue is unchanged, the copied buffer is
freed, no enqueue happens, and the callback returns with exactly these
actions. -/
theorem C9_theorem :
    ∀ (payload : CStr) (len : Int) (opc : Nat) (q : List CStr),
      0 < len → ¬(opc = 9 ∨ opc = 10 ∨ opc = 8) →
      notInlineAck payload = true →
      WS_QUEUE_SIZE ≤ q.length →
      ws_data_handler payload len false opc true q = (q, [HEv.mallocCopy, HEv.freeBuf]) := by
  intro payload len opc q hlen hopc hack hq
  unfold ws_data_handler
  rw [if_neg (by simp; omega)]
  rw [if_neg hopc]
  rw [if_neg (by simp)]
  have hfull : ¬ q.length < WS_QUEUE_SIZE := by omega
  unfold notInlineAck at hack
  rcases hm : get_message_type payload with _ | t
  · dsimp only
    rw [if_neg hfull]
  · rw [hm] at hack
    dsimp only at hack ⊢
    simp only [Bool.and_eq_true, decide_eq_true_eq] at hack
    rw [if_neg hack.1.1, if_neg hack.1.2, if_neg hack.2, if_neg hfull]

/-- Claim C9 witness: a compact download_notify arriving at a full
ten-element queue is dropped with its buffer freed. -/
theorem C9_witness :
    ws_data_handler ("\"type\":\"download_notify\"".toList) 24 false 1 true
        [[], [], [], [], [], [], [], [], [], []] =
      ([[], [], [], [], [], [], [], [], [], []], [HEv.mallocCopy, HEv.freeBuf]) :=
  C9_theorem ("\"type\":\"download_notify\"".toList) 24 1
    [[], [], [], [], [], [], [], [], [], []]
    (by decide) (by decide) (by decide) (by decide)

/-- Claim C4: the reconnection counter is incremented on each below-cap
timer fire and never exceeds the cap (first two conjuncts); once at the cap,
any number of timer fires makes no connect attempt, leaves the counter at
the cap, and stops the timer (third conjunct); and the only event that
resets a non-zero counter to zero is a confirmed connect (fourth
conjunct). -/
theorem C4_theorem :
    (∀ s : ConnState, s.reconnect_attempts ≤ MAX_RECONNECT_ATTEMPTS →
      ∀ e, (conn_step s e).1.reconnect_attempts ≤ MAX_RECONNECT_ATTEMPTS)
    ∧ (∀ s : ConnState, s.reconnect_attempts < MAX_RECONNECT_ATTEMPTS →
      conn_step s .reconnectTimerFire =
        ({ s with reconnect_attempts := s.reconnect_attempts + 1 }, !s.connected))
    ∧ (∀ s : ConnState, s.reconnect_attempts = MAX_RECONNECT_ATTEMPTS → ∀ k,
      (fire_many s k).2 = false
      ∧ (fire_many s k).1.reconnect_attempts = MAX_RECONNECT_ATTEMPTS
      ∧ (1 ≤ k → (fire_many s k).1.reconnectTimerOn = false))
    ∧ (∀ (s : ConnState) e, s.reconnect_attempts ≠ 0 →
      (conn_step s e).1.reconnect_attempts = 0 → e = ConnEv.connected) := by
  refine ⟨?_, ?_, ?_, ?_⟩
  · intro s hs e
    cases e with
    | connected => simp [conn_step]
    | disconnected => simpa [conn_step] using hs
    | reconnectTimerFire =>
      simp only [conn_step, attempt_reconnect]
      split_ifs with h
      · simpa using h
      · simpa using hs
  · intro s hs
    simp [conn_step, attempt_reconnect, hs]
  · intro s hs k
    induction k generalizing s with
    | zero => simp [fire_many, hs]
    | succ k ih =>
      have hstep : conn_step s .reconnectTimerFire = ({ s with reconnectTimerOn := false }, false) := by
        simp [conn_step, attempt_reconnect, hs]
      have hs' : ({ s with reconnectTimerOn := false } : ConnState).reconnect_attempts =
          MAX_RECONNECT_ATTEMPTS := hs
      rcases ih _ hs' with ⟨ih1, ih2, ih3⟩
      refine ⟨?_, ?_, ?_⟩
      · simp only [fire_many, hstep]
        simpa using ih1
      · simp only [fire_many, hstep]
        simpa using ih2
      · intro _
        simp only [fire_many, hstep]
        cases k with
        | zero => simp [fire_many]
        | succ k2 => simpa using ih3 (by omega)
  · intro s e hs h0
    cases e with
    | connected => rfl
    | disconnected => exact absurd h0 hs
    | reconnectTimerFire =>
      exfalso
      unfold conn_step attempt_reconnect at h0
      split_ifs at h0 with h
      · simp at h0
      · exact hs h0

/-- Claim C4 witness: from a capped state, three timer fires make no
attempt, keep the counter at the cap, and leave the timer stopped. -/
theorem C4_witness :
    (fire_many ⟨10, true, false, false⟩ 3).2 = false
    ∧ (fire_many ⟨10, true, false, false⟩ 3).1.reconnect_attempts = 10
    ∧ (fire_many ⟨10, true, false, false⟩ 3).1.reconnectTimerOn = false := by
  have h := C4_theorem.2.2.1 ⟨10, true, false, false⟩ rfl 3
  exact ⟨h.1, h.2.1, h.2.2 (by omega)⟩

theorem reclaimLoop_cons (need : Int) (total used : Nat) (ent : DirEnt)
    (rest : List DirEnt) :
    reclaimLoop need total used (ent :: rest) =
      if ent.name.length < 30 then
        if need ≤ (total : Int) - ((used - ent.size : Nat) : Int) then
          ([DlEv.unlinkFile ent.name], used - ent.size, rest)
        else
          (DlEv.unlinkFile ent.name :: (reclaimLoop need total (used - ent.size) rest).1,
            (reclaimLoop need total (used - ent.size) rest).2.1,
            (reclaimLoop need total (used - ent.size) rest).2.2)
      else
        ((reclaimLoop need total used rest).1, (reclaimLoop need total used rest).2.1,
          ent :: (reclaimLoop need total used rest).2.2) := rfl

theorem reclaim_events_unlink (need : Int) (total : Nat) :
    ∀ (entries : List DirEnt) (used : Nat) (e : DlEv),
      e ∈ (reclaimLoop need total used entries).1 → ∃ nm, e = DlEv.unlinkFile nm := by
  intro entries
  induction entries with
  | nil => intro used e he; simp [reclaimLoop] at he
  | cons ent rest ih =>
    intro used e he
    rw [reclaimLoop_cons] at he
    split_ifs at he with h1 h2
    · dsimp only at he
      rw [List.mem_singleton] at he
      exact ⟨ent.name, he⟩
    · dsimp only at he
      rcases List.mem_cons.mp he with he | he
      · exact ⟨ent.name, he⟩
      · exact ih _ e he
    · dsimp only at he
      exact ih _ e he

theorem reclaim_unlink_names (need : Int) (total : Nat) :
    ∀ (entries : List DirEnt) (used : Nat) (nm : CStr),
      DlEv.unlinkFile nm ∈ (reclaimLoop need total used entries).1 → nm.length < 30 := by
  intro entries
  induction entries with
  | nil => intro used nm h; simp [reclaimLoop] at h
  | cons ent rest ih =>
    intro used nm h
    rw [reclaimLoop_cons] at h
    split_ifs at h with h1 h2
    · dsimp only at h
      rw [List.mem_singleton] at h
      obtain rfl := DlEv.unlinkFile.inj h
      exact h1
    · dsimp only at h
      rcases List.mem_cons.mp h with h | h
      · obtain rfl := DlEv.unlinkFile.inj h
        exact h1
      · exact ih _ nm h
    · dsimp only at h
      exact ih _ nm h

theorem reclaim_post (need : Int) (total : Nat) :
    ∀ (entries : List DirEnt) (used : Nat),
      need ≤ (total : Int) - ((reclaimLoop need total used entries).2.1 : Int)
      ∨ ∀ e ∈ (reclaimLoop need total used entries).2.2, 30 ≤ e.name.length := by
  intro entries
  induction entries with
  | nil => intro used; right; simp [reclaimLoop]
  | cons ent rest ih =>
    intro used
    rw [reclaimLoop_cons]
    split_ifs with h1 h2
    · left
      dsimp only
      exact h2
    · rcases ih (used - ent.size) with h | h
      · left
        dsimp only
        exact h
      · right
        dsimp only
        exact h
    · rcases ih used with h | h
      · left
        dsimp only
        exact h
      · right
        dsimp only
        intro e he
        rcases List.mem_cons.mp he with he | he
        · rw [he]
          omega
        · exact h e he

theorem dlLoop_cons (cl : Nat) (chunk : List Nat) (rest : List (List Nat))
    (times : List Int) (st : DlLoopSt) :
    dlLoop cl (chunk :: rest) times st =
      if chunk.length = 0 then st
      else if (10 ≤ (st.total_read + chunk.length) * 100 / cl - st.last_percent ∨
          3 ≤ times.headD 0 - st.last_update_time) ∧
          (st.total_read + chunk.length) * 100 / cl ≠ st.last_percent then
        dlLoop cl rest times.tail
          { total_read := st.total_read + chunk.length,
            last_percent := (st.total_read + chunk.length) * 100 / cl,
            last_update_time := times.headD 0,
            bytes := st.bytes ++ chunk,
            events := st.events ++ [DlEv.bodyRead chunk.length, DlEv.fileWrite chunk.length],
            reports := st.reports ++ [((st.total_read + chunk.length) * 100 / cl, times.headD 0)] }
      else
        dlLoop cl rest times.tail
          { total_read := st.total_read + chunk.length, last_percent := st.last_percent,
            last_update_time := st.last_update_time,
            bytes := st.bytes ++ chunk,
            events := st.events ++ [DlEv.bodyRead chunk.length, DlEv.fileWrite chunk.length],
            reports := st.reports } := rfl

theorem dlLoop_reports (cl : Nat) :
    ∀ (chunks : List (List Nat)) (times : List Int) (st : DlLoopSt),
      (dlLoop cl chunks times st).reports =
        st.reports ++ transferReports cl (chunks.map List.length) times
          st.total_read st.last_percent st.last_update_time := by
  intro chunks
  induction chunks with
  | nil => intro times st; simp [dlLoop, transferReports]
  | cons chunk rest ih =>
    intro times st
    simp only [dlLoop, List.map, transferReports]
    split_ifs with h0 hc
    · simp
    · rw [ih]
      simp [List.append_assoc]
    · rw [ih]

theorem dlLoop_events (cl : Nat) :
    ∀ (chunks : List (List Nat)) (times : List Int) (st : DlLoopSt) (e : DlEv),
      e ∈ (dlLoop cl chunks times st).events →
        e ∈ st.events ∨ (∃ n, e = DlEv.bodyRead n) ∨ ∃ n, e = DlEv.fileWrite n := by
  intro chunks
  induction chunks with
  | nil => intro times st e he; exact Or.inl he
  | cons chunk rest ih =>
    intro times st e he
    rw [dlLoop_cons] at he
    split_ifs at he with h0 hc
    · exact Or.inl he
    · rcases ih _ _ e he with h | h
      · rcases List.mem_append.mp h with h | h
        · exact Or.inl h
        · rcases List.mem_cons.mp h with h | h
          · exact Or.inr (Or.inl ⟨chunk.length, h⟩)
          · rw [List.mem_singleton] at h
            exact Or.inr (Or.inr ⟨chunk.length, h⟩)
      · exact Or.inr h
    · rcases ih _ _ e he with h | h
      · rcases List.mem_append.mp h with h | h
        · exact Or.inl h
        · rcases List.mem_cons.mp h with h | h
          · exact Or.inr (Or.inl ⟨chunk.length, h⟩)
          · rw [List.mem_singleton] at h
            exact Or.inr (Or.inr ⟨chunk.length, h⟩)
      · exact Or.inr h

theorem upLoop_reports (fs : Nat) :
    ∀ (sizes : List Nat) (times : List Int) (st : UpSt),
      (upLoop fs sizes times st).reports =
        st.reports ++ transferReports fs sizes times
          st.total_write st.last_percent st.last_update_time := by
  intro sizes
  induction sizes with
  | nil => intro times st; simp [upLoop, transferReports]
  | cons n rest ih =>
    intro times st
    simp only [upLoop, transferReports]
    split_ifs with h0 hc
    · simp
    · rw [ih]
      simp [List.append_assoc]
    · rw [ih]

theorem upLoop_last (fs : Nat) :
    ∀ (sizes : List Nat) (times : List Int) (st : UpSt),
      (upLoop fs sizes times st).last_percent =
        lastD ((transferReports fs sizes times
          st.total_write st.last_percent st.last_update_time).map Prod.fst)
          st.last_percent := by
  intro sizes
  induction sizes with
  | nil => intro times st; simp [upLoop, transferReports, lastD]
  | cons n rest ih =>
    intro times st
    simp only [upLoop, transferReports]
    split_ifs with h0 hc
    · simp [lastD]
    · rw [ih]
      simp [lastD]
    · rw [ih]

theorem transferReports_cons (sz n : Nat) (rest : List Nat) (times : List Int)
    (tr lp : Nat) (lt : Int) :
    transferReports sz (n :: rest) times tr lp lt =
      if n = 0 then []
      else if (10 ≤ (tr + n) * 100 / sz - lp ∨ 3 ≤ times.headD 0 - lt) ∧
          (tr + n) * 100 / sz ≠ lp then
        ((tr + n) * 100 / sz, times.headD 0) ::
          transferReports sz rest times.tail (tr + n) ((tr + n) * 100 / sz) (times.headD 0)
      else transferReports sz rest times.tail (tr + n) lp lt := rfl

theorem pctMono (sz : Nat) {a b : Nat} (h : a ≤ b) : a * 100 / sz ≤ b * 100 / sz := by
  gcongr

theorem transfer_progressOk (sz : Nat) :
    ∀ (sizes : List Nat) (times : List Int) (tr lp : Nat) (lt : Int),
      progressOkB lp lt (transferReports sz sizes times tr lp lt) = true := by
  intro sizes
  induction sizes with
  | nil => intro times tr lp lt; simp [transferReports, progressOkB]
  | cons n rest ih =>
    intro times tr lp lt
    rw [transferReports_cons]
    split_ifs with h0 hc
    · rfl
    · simp only [progressOkB, Bool.and_eq_true, Bool.or_eq_true, decide_eq_true_eq]
      exact ⟨⟨hc.1, hc.2⟩, ih _ _ _ _⟩
    · exact ih _ _ _ _

theorem transfer_strict (sz : Nat) :
    ∀ (sizes : List Nat) (times : List Int) (tr lp : Nat) (lt : Int),
      lp ≤ tr * 100 / sz →
      strictIncB (lp :: (transferReports sz sizes times tr lp lt).map Prod.fst) = true := by
  intro sizes
  induction sizes with
  | nil => intro times tr lp lt _; simp [transferReports, strictIncB]
  | cons n rest ih =>
    intro times tr lp lt hinv
    rw [transferReports_cons]
    split_ifs with h0 hc
    · simp [strictIncB]
    · have hlt : lp < (tr + n) * 100 / sz :=
        lt_of_le_of_ne (le_trans hinv (pctMono sz (Nat.le_add_right tr n))) (Ne.symm hc.2)
      simp only [List.map_cons, strictIncB, Bool.and_eq_true, decide_eq_true_eq]
      exact ⟨hlt, ih _ _ _ _ (le_refl _)⟩
    · exact ih _ _ _ _ (le_trans hinv (pctMono sz (Nat.le_add_right tr n)))

theorem transfer_last_le (sz : Nat) :
    ∀ (sizes : List Nat) (times : List Int) (tr lp : Nat) (lt : Int),
      lp ≤ tr * 100 / sz →
      lastD ((transferReports sz sizes times tr lp lt).map Prod.fst) lp ≤
        (tr + sizes.sum) * 100 / sz := by
  intro sizes
  induction sizes with
  | nil =>
    intro times tr lp lt hinv
    simpa [transferReports, lastD] using hinv
  | cons n rest ih =>
    intro times tr lp lt hinv
    have hsum : tr + n + rest.sum = tr + (n :: rest).sum := by
      rw [List.sum_cons]
      omega
    rw [transferReports_cons]
    split_ifs with h0 hc
    · simp only [List.map_nil, lastD]
      exact le_trans hinv (pctMono sz (Nat.le_add_right tr _))
    · simp only [List.map_cons, lastD]
      have h2 := ih times.tail (tr + n) ((tr + n) * 100 / sz) (times.headD 0) (le_refl _)
      rw [hsum] at h2
      exact h2
    · have h2 := ih times.tail (tr + n) lp lt
        (le_trans hinv (pctMono sz (Nat.le_add_right tr n)))
      rw [hsum] at h2
      exact h2
theorem strictIncB_tail {a : Nat} {l : List Nat} (h : strictIncB (a :: l) = true) :
    strictIncB l = true := by
  cases l with
  | nil => rfl
  | cons b l2 =>
    simp only [strictIncB, Bool.and_eq_true] at h
    exact h.2

theorem strictIncB_append_one :
    ∀ (l : List Nat) (a y : Nat), strictIncB (a :: l) = true → lastD l a < y →
      strictIncB ((a :: l) ++ [y]) = true := by
  intro l
  induction l with
  | nil =>
    intro a y _ hlast
    simp only [lastD] at hlast
    simp [strictIncB, hlast]
  | cons b l2 ih =>
    intro a y h hlast
    simp only [strictIncB, Bool.and_eq_true] at h
    simp only [lastD] at hlast
    have := ih b y h.2 hlast
    simp only [List.cons_append, strictIncB, Bool.and_eq_true, decide_eq_true_eq]
    refine ⟨by simpa using h.1, ?_⟩
    simpa using this

theorem uploadChunksAux_sum :
    ∀ (fuel n : Nat), n ≤ fuel → (uploadChunksAux fuel n).sum = n := by
  intro fuel
  induction fuel with
  | zero => intro n hn; interval_cases n; simp [uploadChunksAux]
  | succ fuel ih =>
    intro n hn
    unfold uploadChunksAux
    split_ifs with h0 hb
    · simp [h0]
    · simp
    · have : n - BUFFER_SIZE ≤ fuel := by
        unfold BUFFER_SIZE at hb ⊢
        omega
      rw [List.sum_cons, ih _ this]
      unfold BUFFER_SIZE at hb ⊢
      omega

/-- A 32-character lowercase hex digest used as the declared md5 in the
concrete scenarios. -/
def m32 : CStr := "0123456789abcdef0123456789abcdef".toList

/-- A digest function whose result always matches `m32`. -/
def md5Match : List Nat → CStr := fun _ => m32

/-- A different 32-character digest, for checksum-mismatch scenarios. -/
def xm32 : CStr := "ffffffffffffffffffffffffffffffff".toList

/-- A digest function whose result never matches `m32`. -/
def md5Mismatch : List Nat → CStr := fun _ => xm32

def aBin : CStr := "a.bin".toList

def uLit : CStr := "u".toList

/-- A benign environment: 100 free bytes, clean setup, Content-Length 4,
one 4-byte chunk, HTTP 200. -/
def envGood : DlEnv := ⟨100, 0, [], true, true, true, true, 4, [[1, 2, 3, 4]], [0], true, 200⟩

/-- Catalog entry used to fill the catalog to its cap. -/
def recX : FileRecord := ⟨"x".toList, 1, m32, 0⟩

/-- A catalog already holding MAX_FILES records. -/
def catFull : List FileRecord := [recX, recX, recX, recX, recX]

/-- A 30-character file name, which the reclaimer refuses to delete. -/
def name30 : CStr := "abcdefghijklmnopqrstuvwxyz0123".toList

/-- An environment with no free space whose only resident file has a
30-character name. -/
def envNoSpace : DlEnv :=
  ⟨100, 100, [⟨name30, 100⟩], true, true, true, true, 4, [[1, 2, 3, 4]], [0], true, 200⟩

/-- A roomy environment for the oversized-declared-size scenario. -/
def envBig : DlEnv := ⟨2000000, 0, [], true, true, true, true, 4, [[1, 2, 3, 4]], [0], true, 200⟩

/-- An environment whose fetched Content-Length is 0 (no body). -/
def envBadCL : DlEnv := ⟨100, 0, [], true, true, true, true, 0, [], [], true, 200⟩

/-- An 8292-byte upload finishing within one second: loop percentages
49, 98, then 100 unreported in the loop, so the final push fires. -/
def upEnvCex : UpEnv := ⟨true, 8292, true, true, true, [0, 0, 0], 0, 200⟩

theorem reclaimIfNeeded_skip {need : Int} {env : DlEnv}
    (h : ¬ ((env.total : Int) - (env.used : Int) < need)) :
    reclaimIfNeeded need env = ([], env.used, env.dirEntries) := by
  unfold reclaimIfNeeded
  rw [if_neg h]

theorem reclaimIfNeeded_events_unlink (need : Int) (env : DlEnv) (e : DlEv)
    (he : e ∈ (reclaimIfNeeded need env).1) : ∃ nm, e = DlEv.unlinkFile nm := by
  unfold reclaimIfNeeded at he
  split_ifs at he with h
  · exact reclaim_events_unlink _ _ _ _ e he
  · simp at he

theorem ws_downloadStart_inv {json : CStr} {parsed : Option Parsed} {fn u m : CStr}
    {sz : Int} (h : handle_ws_data json parsed = WsOutcome.downloadStart fn u m sz) :
    get_message_type json = some dlNotifyName ∧ 0 < sz := by
  unfold handle_ws_data at h
  rcases hm : get_message_type json with _ | t
  · rw [hm] at h
    exfalso
    rcases parsed with _ | p
    · simp at h
    · dsimp only at h
      rcases hp : p.ptype with _ | t
      · rw [hp] at h; simp at h
      · rw [hp] at h
        dsimp only at h
        split_ifs at h with e1 e2 e3
        exact upload_request_not_download _ _ _ _ _ h
  · rw [hm] at h
    dsimp only at h
    by_cases ht : t = dlNotifyName
    · subst ht
      rw [if_pos rfl] at h
      refine ⟨rfl, ?_⟩
      rcases parsed with _ | p
      · simp at h
      · dsimp only at h
        rcases hd : p.pdata with _ | d
        · rw [hd] at h; simp at h
        · rw [hd] at h
          dsimp only at h
          rcases hf : d.filename with _ | fn2 <;> rw [hf] at h
          · simp at h
          · rcases hu2 : d.url with _ | u2 <;> rw [hu2] at h
            · simp at h
            · rcases hm2 : d.md5 with _ | m2 <;> rw [hm2] at h
              · simp at h
              · dsimp only at h
                split_ifs at h with hsz
                obtain ⟨-, -, -, hsz'⟩ := WsOutcome.downloadStart.inj h
                rw [← hsz']
                exact hsz
    · rw [if_neg ht] at h
      simp at h

/-- The state of the download read/write loop started from the zeroed
state, as download_file runs it. -/
def dlRun (env : DlEnv) : DlLoopSt :=
  dlLoop env.content_length.toNat env.chunks env.times
    { total_read := 0, last_percent := 0, last_update_time := 0,
      bytes := [], events := [], reports := [] }

theorem download_file_catalog_cases (url filename md5e : CStr) (fsz : Int)
    (cat : List FileRecord) (now : Int) (md5Fn : List Nat → CStr) (env : DlEnv) :
    (download_file url filename md5e fsz cat now md5Fn env).catalog = cat
    ∨ (cat.length < MAX_FILES ∧
        (download_file url filename md5e fsz cat now md5Fn env).catalog =
          cat ++ [{ filename := (short_filename md5e filename).take 31,
                    size := (dlRun env).total_read,
                    md5 := (md5Fn (dlRun env).bytes).take 32,
                    timestamp := now }]) := by
  unfold download_file
  by_cases c1 : env.httpInitOk = false
  · rw [if_pos c1]
    exact Or.inl rfl
  rw [if_neg c1]
  by_cases c2 : env.spiffsOk = false
  · rw [if_pos c2]
    exact Or.inl rfl
  rw [if_neg c2]
  by_cases c3 : (env.total : Int) - (env.used : Int) < fsz ∧
      (env.total : Int) - ((reclaimIfNeeded fsz env).2.1 : Int) < fsz
  · rw [if_pos c3]
    exact Or.inl rfl
  rw [if_neg c3]
  by_cases c4 : env.fopenOk = false
  · rw [if_pos c4]
    exact Or.inl rfl
  rw [if_neg c4]
  by_cases c5 : env.httpOpenOk = false
  · rw [if_pos c5]
    exact Or.inl rfl
  rw [if_neg c5]
  by_cases c6 : env.content_length ≤ 0 ∨ MAX_FILE_SIZE < env.content_length
  · rw [if_pos c6]
    exact Or.inl rfl
  rw [if_neg c6]
  by_cases c7 : env.bufAllocOk = false
  · rw [if_pos c7]
    exact Or.inl rfl
  rw [if_neg c7]
  by_cases c8 : env.status_code = 200
  · rw [if_pos c8]
    by_cases c9 : cat.length < MAX_FILES
    · rw [if_pos c9]
      exact Or.inr ⟨c9, rfl⟩
    · rw [if_neg c9]
      exact Or.inl rfl
  · rw [if_neg c8]
    exact Or.inl rfl

theorem download_file_noMem (url filename md5e : CStr) (fsz : Int)
    (cat : List FileRecord) (now : Int) (md5Fn : List Nat → CStr) (env : DlEnv)
    (hret : (download_file url filename md5e fsz cat now md5Fn env).ret = DlRet.failNoMem) :
    (download_file url filename md5e fsz cat now md5Fn env).events =
      (reclaimIfNeeded fsz env).1
    ∧ (download_file url filename md5e fsz cat now md5Fn env).catalog = cat := by
  unfold download_file at hret ⊢
  by_cases c1 : env.httpInitOk = false
  · rw [if_pos c1] at hret
    simp at hret
  rw [if_neg c1] at hret ⊢
  by_cases c2 : env.spiffsOk = false
  · rw [if_pos c2] at hret
    simp at hret
  rw [if_neg c2] at hret ⊢
  by_cases c3 : (env.total : Int) - (env.used : Int) < fsz ∧
      (env.total : Int) - ((reclaimIfNeeded fsz env).2.1 : Int) < fsz
  · rw [if_pos c3]
    exact ⟨rfl, rfl⟩
  rw [if_neg c3] at hret ⊢
  by_cases c4 : env.fopenOk = false
  · rw [if_pos c4] at hret
    simp at hret
  rw [if_neg c4] at hret ⊢
  by_cases c5 : env.httpOpenOk = false
  · rw [if_pos c5] at hret
    simp at hret
  rw [if_neg c5] at hret ⊢
  by_cases c6 : env.content_length ≤ 0 ∨ MAX_FILE_SIZE < env.content_length
  · rw [if_pos c6] at hret
    simp at hret
  rw [if_neg c6] at hret ⊢
  by_cases c7 : env.bufAllocOk = false
  · rw [if_pos c7] at hret
    simp at hret
  rw [if_neg c7] at hret ⊢
  by_cases c8 : env.status_code = 200
  · rw [if_pos c8] at hret
    by_cases c9 : cat.length < MAX_FILES
    · rw [if_pos c9] at hret
      simp at hret
    · rw [if_neg c9] at hret
      simp at hret
  · rw [if_neg c8] at hret
    simp at hret

theorem download_file_reports_cases (url filename md5e : CStr) (fsz : Int)
    (cat : List FileRecord) (now : Int) (md5Fn : List Nat → CStr) (env : DlEnv) :
    (download_file url filename md5e fsz cat now md5Fn env).reports = []
    ∨ (download_file url filename md5e fsz cat now md5Fn env).reports =
        (dlRun env).reports := by
  unfold download_file
  by_cases c1 : env.httpInitOk = false
  · rw [if_pos c1]
    exact Or.inl rfl
  rw [if_neg c1]
  by_cases c2 : env.spiffsOk = false
  · rw [if_pos c2]
    exact Or.inl rfl
  rw [if_neg c2]
  by_cases c3 : (env.total : Int) - (env.used : Int) < fsz ∧
      (env.total : Int) - ((reclaimIfNeeded fsz env).2.1 : Int) < fsz
  · rw [if_pos c3]
    exact Or.inl rfl
  rw [if_neg c3]
  by_cases c4 : env.fopenOk = false
  · rw [if_pos c4]
    exact Or.inl rfl
  rw [if_neg c4]
  by_cases c5 : env.httpOpenOk = false
  · rw [if_pos c5]
    exact Or.inl rfl
  rw [if_neg c5]
  by_cases c6 : env.content_length ≤ 0 ∨ MAX_FILE_SIZE < env.content_length
  · rw [if_pos c6]
    exact Or.inl rfl
  rw [if_neg c6]
  by_cases c7 : env.bufAllocOk = false
  · rw [if_pos c7]
    exact Or.inl rfl
  rw [if_neg c7]
  by_cases c8 : env.status_code = 200
  · rw [if_pos c8]
    by_cases c9 : cat.length < MAX_FILES
    · rw [if_pos c9]
      exact Or.inr rfl
    · rw [if_neg c9]
      exact Or.inr rfl
  · rw [if_neg c8]
    exact Or.inr rfl

theorem download_file_ok (url filename md5e : CStr) (fsz : Int)
    (cat : List FileRecord) (now : Int) (md5Fn : List Nat → CStr) (env : DlEnv)
    (h1 : env.httpInitOk = true) (h2 : env.spiffsOk = true)
    (h3 : fsz ≤ (env.total : Int) - (env.used : Int))
    (h4 : env.fopenOk = true) (h5 : env.httpOpenOk = true)
    (h6 : 0 < env.content_length) (h7 : env.content_length ≤ MAX_FILE_SIZE)
    (h8 : env.bufAllocOk = true) (h9 : env.status_code = 200) :
    (download_file url filename md5e fsz cat now md5Fn env).written = (dlRun env).bytes
    ∧ (download_file url filename md5e fsz cat now md5Fn env).ret = DlRet.ok
    ∧ DlEv.sendComplete (short_filename md5e filename) (md5Fn (dlRun env).bytes)
        ∈ (download_file url filename md5e fsz cat now md5Fn env).events
    ∧ (md5Fn (dlRun env).bytes ≠ md5e →
        DlEv.logMismatch ∈ (download_file url filename md5e fsz cat now md5Fn env).events)
    ∧ (cat.length < MAX_FILES →
        (download_file url filename md5e fsz cat now md5Fn env).catalog =
          cat ++ [{ filename := (short_filename md5e filename).take 31,
                    size := (dlRun env).total_read,
                    md5 := (md5Fn (dlRun env).bytes).take 32, timestamp := now }]
        ∧ DlEv.sendFileList ∈ (download_file url filename md5e fsz cat now md5Fn env).events)
    ∧ (¬ cat.length < MAX_FILES →
        (download_file url filename md5e fsz cat now md5Fn env).catalog = cat
        ∧ DlEv.sendFileList ∉ (download_file url filename md5e fsz cat now md5Fn env).events) := by
  have hfree : ¬ ((env.total : Int) - (env.used : Int) < fsz) := by omega
  have hsize : ¬ (env.content_length ≤ 0 ∨ MAX_FILE_SIZE < env.content_length) := by
    push_neg
    constructor <;> omega
  unfold download_file
  rw [if_neg (by simp [h1]), if_neg (by simp [h2]), reclaimIfNeeded_skip hfree,
    if_neg (show ¬ _ from fun hc => hfree hc.1), if_neg (by simp [h4]),
    if_neg (by simp [h5]), if_neg hsize, if_neg (by simp [h8]), if_pos h9]
  by_cases c9 : cat.length < MAX_FILES
  · rw [if_pos c9]
    refine ⟨rfl, rfl, ?_, ?_, fun _ => ⟨rfl, ?_⟩, fun hc => absurd c9 hc⟩
    · dsimp only
      unfold dlRun
      simp [List.mem_append]
    · intro hm
      dsimp only
      unfold dlRun at hm
      simp [hm, List.mem_append]
    · dsimp only
      simp [List.mem_append]
  · rw [if_neg c9]
    refine ⟨rfl, rfl, ?_, ?_, fun hc => absurd hc c9, fun _ => ⟨rfl, ?_⟩⟩
    · dsimp only
      unfold dlRun
      simp [List.mem_append]
    · intro hm
      dsimp only
      unfold dlRun at hm
      simp [hm, List.mem_append]
    · intro hmem
      dsimp only at hmem
      by_cases hm : md5Fn (dlRun env).bytes = md5e <;>
        unfold dlRun at hm <;>
        simp [hm, List.mem_append] at hmem <;>
        rcases dlLoop_events _ _ _ _ _ hmem with hx | hx | hx <;>
        simp_all

/-- Claim C8 (amended): the catalog never exceeds MAX_FILES entries, but
when it is already full a completed download's record is silently not
admitted: the catalog is left unchanged and no catalog entry is ever
evicted (the reclaimer deletes files from the filesystem, never catalog
records). -/
theorem C8_theorem :
    (∀ url filename md5e fsz cat now md5Fn env,
        cat.length ≤ MAX_FILES →
        (download_file url filename md5e fsz cat now md5Fn env).catalog.length ≤ MAX_FILES)
    ∧ (∀ url filename md5e fsz cat now md5Fn env,
        MAX_FILES ≤ cat.length →
        (download_file url filename md5e fsz cat now md5Fn env).catalog = cat) := by
  constructor
  · intro url filename md5e fsz cat now md5Fn env hcat
    rcases download_file_catalog_cases url filename md5e fsz cat now md5Fn env with
      h | ⟨hlt, h⟩
    · rw [h]
      exact hcat
    · rw [h]
      simp only [List.length_append, List.length_cons, List.length_nil]
      omega
  · intro url filename md5e fsz cat now md5Fn env hcat
    rcases download_file_catalog_cases url filename md5e fsz cat now md5Fn env with
      h | ⟨hlt, h⟩
    · exact h
    · exfalso
      omega

/-- Claim C8 counterexample: with the catalog at its cap, a fully
successful download leaves the catalog unchanged -- no entry is evicted
and the new entry is never admitted, contradicting "the Storage Reclaimer
evicts existing entries before the new entry is admitted". -/
theorem C8_counterexample :
    (download_file uLit aBin m32 4 catFull 7 md5Match envGood).catalog = catFull
    ∧ (download_file uLit aBin m32 4 catFull 7 md5Match envGood).ret = DlRet.ok
    ∧ DlEv.sendComplete ("f_01234567.bin".toList) m32
        ∈ (download_file uLit aBin m32 4 catFull 7 md5Match envGood).events := by
  decide

/-- Claim C8 witness: the cap-preservation part applied at the full
catalog. -/
theorem C8_witness :
    (download_file uLit aBin m32 4 catFull 7 md5Match envGood).catalog = catFull :=
  C8_theorem.2 uLit aBin m32 4 catFull 7 md5Match envGood (by decide)

/-- Claim C7 (amended): the reclaimer walks the directory deleting entries
one by one -- but only entries whose names are shorter than 30 characters,
longer-named files are skipped and stay resident -- until free capacity
reaches the required size or the enumeration is exhausted; every unlinked
file had a short name; and when download_file aborts with the storage
failure ESP_ERR_NO_MEM, the only events that have happened are unlinks (no
network open, no header fetch, no body read, no file creation or write)
and the catalog is untouched. -/
theorem C7_theorem :
    (∀ (need : Int) (total used : Nat) (entries : List DirEnt),
        need ≤ (total : Int) - ((reclaimLoop need total used entries).2.1 : Int)
        ∨ ∀ e ∈ (reclaimLoop need total used entries).2.2, 30 ≤ e.name.length)
    ∧ (∀ (need : Int) (total used : Nat) (entries : List DirEnt) (nm : CStr),
        DlEv.unlinkFile nm ∈ (reclaimLoop need total used entries).1 → nm.length < 30)
    ∧ (∀ url filename md5e fsz cat now md5Fn env,
        (download_file url filename md5e fsz cat now md5Fn env).ret = DlRet.failNoMem →
        (∀ e ∈ (download_file url filename md5e fsz cat now md5Fn env).events,
            ∃ nm, e = DlEv.unlinkFile nm)
        ∧ (download_file url filename md5e fsz cat now md5Fn env).catalog = cat) := by
  refine ⟨?_, ?_, ?_⟩
  · intro need total used entries
    exact reclaim_post need total entries used
  · intro need total used entries nm h
    exact reclaim_unlink_names need total entries used nm h
  · intro url filename md5e fsz cat now md5Fn env hret
    obtain ⟨hev, hcat⟩ := download_file_noMem url filename md5e fsz cat now md5Fn env hret
    refine ⟨?_, hcat⟩
    intro e he
    rw [hev] at he
    exact reclaimIfNeeded_events_unlink _ _ e he

/-- Claim C7 counterexample: free space 0 with 50 bytes required, and a
single resident file whose 30-character name makes the reclaimer skip it;
the download aborts with the storage failure although a deletion candidate
(whose removal would have freed enough) remains resident, contradicting
"deletes them one by one until free capacity is at least the required size
or no candidates remain". -/
theorem C7_counterexample :
    (download_file uLit aBin m32 50 [] 7 md5Match envNoSpace).ret = DlRet.failNoMem
    ∧ (download_file uLit aBin m32 50 [] 7 md5Match envNoSpace).events = []
    ∧ (download_file uLit aBin m32 50 [] 7 md5Match envNoSpace).dirAfter
        = [⟨name30, 100⟩] := by
  decide

/-- Claim C7 witness: the storage-failure part applied at the skipped-file
scenario: the catalog is untouched. -/
theorem C7_witness :
    (download_file uLit aBin m32 50 [] 7 md5Match envNoSpace).catalog = [] :=
  (C7_theorem.2.2 uLit aBin m32 50 [] 7 md5Match envNoSpace (by decide)).2

/-- Claim C3 (amended): the size-validity check is applied to the
Content-Length fetched from the server, not to the declared size, and it
runs after the HTTP connection is opened and the headers are fetched: with
ample storage, an out-of-range Content-Length makes download_file return
ESP_ERR_INVALID_SIZE with exactly the trace file-open, http-open,
fetch-headers -- the abort precedes any body read or file write but not
the network open.  The declared size is never compared against
MAX_FILE_SIZE; a non-positive declared size cannot reach download_file
because the dispatcher starts a download only for size > 0 (second
conjunct). -/
theorem C3_theorem :
    (∀ url filename md5e fsz cat now md5Fn env,
        env.httpInitOk = true → env.spiffsOk = true →
        fsz ≤ (env.total : Int) - (env.used : Int) →
        env.fopenOk = true → env.httpOpenOk = true →
        (env.content_length ≤ 0 ∨ MAX_FILE_SIZE < env.content_length) →
        (download_file url filename md5e fsz cat now md5Fn env).events =
          [DlEv.fileOpen (short_filename md5e filename), DlEv.httpOpen, DlEv.fetchHeaders]
        ∧ (download_file url filename md5e fsz cat now md5Fn env).ret = DlRet.failInvalidSize)
    ∧ (∀ json parsed fn u m sz,
        handle_ws_data json parsed = WsOutcome.downloadStart fn u m sz → 0 < sz) := by
  constructor
  · intro url filename md5e fsz cat now md5Fn env h1 h2 h3 h4 h5 h6
    have hfree : ¬ ((env.total : Int) - (env.used : Int) < fsz) := by omega
    unfold download_file
    rw [if_neg (by simp [h1]), if_neg (by simp [h2]), reclaimIfNeeded_skip hfree,
      if_neg (show ¬ _ from fun hc => hfree hc.1), if_neg (by simp [h4]),
      if_neg (by simp [h5]), if_pos h6]
    exact ⟨by simp, rfl⟩
  · intro json parsed fn u m sz h
    exact (ws_downloadStart_inv h).2

/-- Claim C3 counterexample: a download whose declared size exceeds
MAX_FILE_SIZE (1 MiB + 1) with a small actual Content-Length is not
rejected at all: it opens the connection, reads the body and completes,
contradicting "rejected and aborted with a resource failure before the
streaming read is opened". -/
theorem C3_counterexample :
    (download_file uLit aBin m32 (MAX_FILE_SIZE + 1) [] 7 md5Match envBig).ret = DlRet.ok
    ∧ DlEv.httpOpen ∈ (download_file uLit aBin m32 (MAX_FILE_SIZE + 1) [] 7 md5Match envBig).events
    ∧ DlEv.bodyRead 4 ∈ (download_file uLit aBin m32 (MAX_FILE_SIZE + 1) [] 7 md5Match envBig).events := by
  decide

/-- Claim C3 witness: a zero Content-Length download aborts with
ESP_ERR_INVALID_SIZE after the header fetch. -/
theorem C3_witness :
    (download_file uLit aBin m32 4 [] 7 md5Match envBadCL).ret = DlRet.failInvalidSize :=
  (C3_theorem.1 uLit aBin m32 4 [] 7 md5Match envBadCL rfl rfl (by decide) rfl rfl
    (Or.inl (by decide))).2

/-- Claim C1 (amended): for a clean download (setup succeeds, enough free
space, valid Content-Length, HTTP 200 -- which covers a GET returning
exactly the declared bytes with matching checksum), the device emits a
download_complete whose filename field is the derived short storage name
("f_" + first 8 characters of the declared md5 + the original extension),
not the filename from the download_notify, and whose md5 field is the
checksum computed over the bytes written to storage. -/
theorem C1_theorem :
    ∀ url filename md5e fsz cat now md5Fn env,
      env.httpInitOk = true → env.spiffsOk = true →
      fsz ≤ (env.total : Int) - (env.used : Int) →
      env.fopenOk = true → env.httpOpenOk = true →
      0 < env.content_length → env.content_length ≤ MAX_FILE_SIZE →
      env.bufAllocOk = true → env.status_code = 200 →
      DlEv.sendComplete (short_filename md5e filename)
          (md5Fn (download_file url filename md5e fsz cat now md5Fn env).written)
        ∈ (download_file url filename md5e fsz cat now md5Fn env).events
      ∧ (download_file url filename md5e fsz cat now md5Fn env).ret = DlRet.ok := by
  intro url filename md5e fsz cat now md5Fn env h1 h2 h3 h4 h5 h6 h7 h8 h9
  obtain ⟨hw, hret, hsc, -, -, -⟩ :=
    download_file_ok url filename md5e fsz cat now md5Fn env h1 h2 h3 h4 h5 h6 h7 h8 h9
  rw [hw]
  exact ⟨hsc, hret⟩

/-- Claim C1 counterexample: the Scenario B download (filename a.bin,
declared size 4, matching checksum, exactly the declared bytes, HTTP 200)
emits no download_complete whose filename is a.bin: the completion carries
f_01234567.bin, the short name derived from the declared md5. -/
theorem C1_counterexample :
    (download_file uLit aBin m32 4 [] 7 md5Match envGood).events.any
        (fun e => match e with
          | DlEv.sendComplete f _ => decide (f = aBin)
          | _ => false) = false
    ∧ DlEv.sendComplete ("f_01234567.bin".toList) m32
        ∈ (download_file uLit aBin m32 4 [] 7 md5Match envGood).events := by
  decide

/-- Claim C1 witness: the amended statement at the Scenario B input. -/
theorem C1_witness :
    DlEv.sendComplete (short_filename m32 aBin)
        (md5Match (download_file uLit aBin m32 4 [] 7 md5Match envGood).written)
      ∈ (download_file uLit aBin m32 4 [] 7 md5Match envGood).events
    ∧ (download_file uLit aBin m32 4 [] 7 md5Match envGood).ret = DlRet.ok :=
  C1_theorem uLit aBin m32 4 [] 7 md5Match envGood rfl rfl (by decide) rfl rfl
    (by decide) (by decide) rfl rfl

/-- Claim C6 (amended): on a successful stream (HTTP 200) whose computed
checksum differs from the declared one, the mismatch is logged as a warning
and the transfer is still accepted: the completion notice with the computed
checksum is sent; then, exactly as in the matching case, a File Record is
appended and the catalog re-announced when the catalog is below its
MAX_FILES cap -- but when the catalog is full neither happens (also exactly
as in the matching case). -/
theorem C6_theorem :
    ∀ url filename md5e fsz cat now md5Fn env,
      env.httpInitOk = true → env.spiffsOk = true →
      fsz ≤ (env.total : Int) - (env.used : Int) →
      env.fopenOk = true → env.httpOpenOk = true →
      0 < env.content_length → env.content_length ≤ MAX_FILE_SIZE →
      env.bufAllocOk = true → env.status_code = 200 →
      md5Fn (download_file url filename md5e fsz cat now md5Fn env).written ≠ md5e →
      DlEv.logMismatch ∈ (download_file url filename md5e fsz cat now md5Fn env).events
      ∧ DlEv.sendComplete (short_filename md5e filename)
          (md5Fn (download_file url filename md5e fsz cat now md5Fn env).written)
        ∈ (download_file url filename md5e fsz cat now md5Fn env).events
      ∧ (cat.length < MAX_FILES →
          (∃ sz, (download_file url filename md5e fsz cat now md5Fn env).catalog =
            cat ++ [{ filename := (short_filename md5e filename).take 31, size := sz,
                      md5 := (md5Fn (download_file url filename md5e fsz cat now
                        md5Fn env).written).take 32,
                      timestamp := now }])
          ∧ DlEv.sendFileList ∈ (download_file url filename md5e fsz cat now md5Fn env).events)
      ∧ (¬ cat.length < MAX_FILES →
          (download_file url filename md5e fsz cat now md5Fn env).catalog = cat
          ∧ DlEv.sendFileList ∉ (download_file url filename md5e fsz cat now md5Fn env).events) := by
  intro url filename md5e fsz cat now md5Fn env h1 h2 h3 h4 h5 h6 h7 h8 h9 h10
  obtain ⟨hw, hret, hsc, hlm, hfull, hnofull⟩ :=
    download_file_ok url filename md5e fsz cat now md5Fn env h1 h2 h3 h4 h5 h6 h7 h8 h9
  rw [hw] at h10 ⊢
  refine ⟨hlm h10, hsc, ?_, hnofull⟩
  intro hc
  obtain ⟨hcat, hfl⟩ := hfull hc
  exact ⟨⟨(dlRun env).total_read, hcat⟩, hfl⟩

/-- Claim C6 counterexample: a checksum-mismatch download arriving with the
catalog already at its cap: the mismatch is logged and the completion sent,
but no File Record is appended and the catalog is not re-announced --
contradicting the claim that every accepted mismatch download appends a
record and re-announces the catalog. -/
theorem C6_counterexample :
    DlEv.logMismatch ∈ (download_file uLit aBin m32 4 catFull 7 md5Mismatch envGood).events
    ∧ DlEv.sendComplete ("f_01234567.bin".toList) xm32
        ∈ (download_file uLit aBin m32 4 catFull 7 md5Mismatch envGood).events
    ∧ (download_file uLit aBin m32 4 catFull 7 md5Mismatch envGood).catalog = catFull
    ∧ DlEv.sendFileList ∉ (download_file uLit aBin m32 4 catFull 7 md5Mismatch envGood).events := by
  decide

/-- Claim C6 witness: the amended statement at a mismatch download with a
non-full catalog. -/
theorem C6_witness :
    DlEv.logMismatch ∈ (download_file uLit aBin m32 4 [] 7 md5Mismatch envGood).events :=
  (C6_theorem uLit aBin m32 4 [] 7 md5Mismatch envGood rfl rfl (by decide) rfl rfl
    (by decide) (by decide) rfl rfl (by decide)).1

/-- The upload loop state started from the zeroed state, as upload_file
runs it. -/
def upRun (env : UpEnv) : UpSt :=
  upLoop env.file_size.toNat (uploadChunks env.file_size.toNat) env.times
    { total_write := 0, last_percent := 0, last_update_time := 0, reports := [] }

theorem upload_file_reports_cases (filename : CStr) (env : UpEnv) :
    (upload_file filename env).reports = []
    ∨ (upload_file filename env).reports = (upRun env).reports
    ∨ (0 < env.file_size ∧ (upRun env).last_percent ≠ 100
        ∧ (upload_file filename env).reports = (upRun env).reports ++ [(100, env.endTime)]) := by
  unfold upload_file
  by_cases u1 : env.fileOpenOk = false
  · rw [if_pos u1]
    exact Or.inl rfl
  rw [if_neg u1]
  by_cases u2 : env.file_size ≤ 0 ∨ MAX_FILE_SIZE < env.file_size
  · rw [if_pos u2]
    exact Or.inl rfl
  rw [if_neg u2]
  by_cases u3 : env.httpInitOk = false
  · rw [if_pos u3]
    exact Or.inl rfl
  rw [if_neg u3]
  by_cases u4 : env.httpOpenOk = false
  · rw [if_pos u4]
    exact Or.inl rfl
  rw [if_neg u4]
  by_cases u5 : env.bufAllocOk = false
  · rw [if_pos u5]
    exact Or.inl rfl
  rw [if_neg u5]
  have hpos : 0 < env.file_size := by
    push_neg at u2
    omega
  dsimp only
  by_cases u6 : (upLoop env.file_size.toNat (uploadChunks env.file_size.toNat) env.times
        { total_write := 0, last_percent := 0, last_update_time := 0,
          reports := [] }).last_percent ≠ 100
      ∧ (upLoop env.file_size.toNat (uploadChunks env.file_size.toNat) env.times
        { total_write := 0, last_percent := 0, last_update_time := 0,
          reports := [] }).total_write = env.file_size.toNat
  · rw [if_pos u6]
    by_cases u7 : env.status_code = 200 ∨ env.status_code = 201
    · rw [if_pos u7]
      exact Or.inr (Or.inr ⟨hpos, u6.1, rfl⟩)
    · rw [if_neg u7]
      exact Or.inr (Or.inr ⟨hpos, u6.1, rfl⟩)
  · rw [if_neg u6]
    by_cases u7 : env.status_code = 200 ∨ env.status_code = 201
    · rw [if_pos u7]
      exact Or.inr (Or.inl rfl)
    · rw [if_neg u7]
      exact Or.inr (Or.inl rfl)

theorem upRun_reports (env : UpEnv) :
    (upRun env).reports =
      transferReports env.file_size.toNat (uploadChunks env.file_size.toNat)
        env.times 0 0 0 := by
  unfold upRun
  rw [upLoop_reports]
  exact List.nil_append _

theorem upRun_last (env : UpEnv) :
    (upRun env).last_percent =
      lastD ((transferReports env.file_size.toNat (uploadChunks env.file_size.toNat)
        env.times 0 0 0).map Prod.fst) 0 := by
  unfold upRun
  rw [upLoop_last]

theorem dlRun_reports (env : DlEnv) :
    (dlRun env).reports = transferReports env.content_length.toNat
      (env.chunks.map List.length) env.times 0 0 0 := by
  unfold dlRun
  rw [dlLoop_reports]
  exact List.nil_append _

theorem upload_strict (filename : CStr) (env : UpEnv) :
    strictIncB (((upload_file filename env).reports).map Prod.fst) = true := by
  rcases upload_file_reports_cases filename env with h | h | ⟨hpos, hne, h⟩
  · rw [h]
    rfl
  · rw [h, upRun_reports]
    exact strictIncB_tail (transfer_strict _ _ _ _ _ _ (Nat.zero_le _))
  · rw [h, List.map_append, upRun_reports]
    have hfs : 0 < env.file_size.toNat := by omega
    have hsum : (uploadChunks env.file_size.toNat).sum = env.file_size.toNat :=
      uploadChunksAux_sum _ _ (le_refl _)
    have hle := transfer_last_le env.file_size.toNat (uploadChunks env.file_size.toNat)
      env.times 0 0 0 (Nat.zero_le _)
    rw [hsum, Nat.zero_add] at hle
    have h100 : env.file_size.toNat * 100 / env.file_size.toNat = 100 :=
      Nat.mul_div_cancel_left 100 hfs
    rw [h100] at hle
    have hne2 : lastD ((transferReports env.file_size.toNat
        (uploadChunks env.file_size.toNat) env.times 0 0 0).map Prod.fst) 0 ≠ 100 := by
      rw [← upRun_last]
      exact hne
    have hlt : lastD ((transferReports env.file_size.toNat
        (uploadChunks env.file_size.toNat) env.times 0 0 0).map Prod.fst) 0 < 100 :=
      lt_of_le_of_ne hle hne2
    have hs := transfer_strict env.file_size.toNat (uploadChunks env.file_size.toNat)
      env.times 0 0 0 (Nat.zero_le _)
    have happ := strictIncB_append_one _ 0 100 hs hlt
    rw [List.cons_append] at happ
    exact strictIncB_tail happ

/-- Claim C5 (amended): for downloads, every progress report satisfies the
throttle (advanced by at least 10 points since the last report or at least
3 seconds later) and the reported percentages are strictly increasing
(hence non-decreasing with no duplicates).  For uploads the same holds for
all in-loop reports, and the percentages of the full report sequence are
still strictly increasing; but when the loop ends with the last reported
percentage different from 100, an additional final 100% report is emitted
regardless of the percentage threshold or the time interval. -/
theorem C5_theorem :
    (∀ url filename md5e fsz cat now md5Fn env,
        progressOkB 0 0 (download_file url filename md5e fsz cat now md5Fn env).reports = true
      ∧ strictIncB (((download_file url filename md5e fsz cat now md5Fn env).reports).map
          Prod.fst) = true)
    ∧ (∀ (filename : CStr) (env : UpEnv),
        progressOkB 0 0 (upRun env).reports = true
      ∧ strictIncB (((upload_file filename env).reports).map Prod.fst) = true
      ∧ ((upload_file filename env).reports = []
          ∨ (upload_file filename env).reports = (upRun env).reports
          ∨ ((upRun env).last_percent ≠ 100
              ∧ (upload_file filename env).reports =
                  (upRun env).reports ++ [(100, env.endTime)]))) := by
  constructor
  · intro url filename md5e fsz cat now md5Fn env
    rcases download_file_reports_cases url filename md5e fsz cat now md5Fn env with h | h
    · rw [h]
      exact ⟨rfl, rfl⟩
    · rw [h, dlRun_reports]
      exact ⟨transfer_progressOk _ _ _ _ _ _,
        strictIncB_tail (transfer_strict _ _ _ _ _ _ (Nat.zero_le _))⟩
  · intro filename env
    refine ⟨?_, upload_strict filename env, ?_⟩
    · rw [upRun_reports]
      exact transfer_progressOk _ _ _ _ _ _
    · rcases upload_file_reports_cases filename env with h | h | ⟨-, hne, h⟩
      · exact Or.inl h
      · exact Or.inr (Or.inl h)
      · exact Or.inr (Or.inr ⟨hne, h⟩)

/-- Claim C5 counterexample: an 8292-byte upload completing within one
second reports 49%, 98% and then -- via the unconditional final push --
100%, although 100% is neither 10 points past 98% nor 3 seconds later, so
the claimed "only when" throttling condition is violated. -/
theorem C5_counterexample :
    (upload_file ("f".toList) upEnvCex).reports = [(49, 0), (98, 0), (100, 0)]
    ∧ progressOkB 0 0 (upload_file ("f".toList) upEnvCex).reports = false := by
  decide

end AP
